import Mathlib

/-!
Verification development for the supervek-seo-app repository.

The definitions below are a shallow embedding, translated from the
TypeScript sources:
  - app/utils/validation.server.ts   (validateKeyword, validateWordCount, ...)
  - app/utils/rateLimit.server.ts    (rateLimitCheck)
  - app/routes/app.generate-blog.tsx (the POST action: payload extraction,
    JSON parse, required-field validation, find-or-create blog, slug
    derivation, article creation, result mapping)

Strings are modelled as Lean String / List Char; machine integers as Int/Nat;
throwing code returns Except; the stateful rate limiter is explicit state
passing; the route handler's external collaborators (AI provider, Shopify
content store) are stub parameters, and the handler records an effect trace.
-/

namespace Supervek

/-! ## Character classes (JS regex \s, \w and the validators' classes) -/

/-- The JavaScript whitespace class: the characters matched by the regex
class backslash-s and stripped by String.prototype.trim (WhiteSpace plus
LineTerminator code points). -/
def isJsWhitespace (c : Char) : Bool :=
  c.toNat = 32 || c.toNat = 9 || c.toNat = 10 || c.toNat = 11 || c.toNat = 12 ||
  c.toNat = 13 || c.toNat = 160 || c.toNat = 5760 ||
  (8192 ≤ c.toNat && c.toNat ≤ 8202) || c.toNat = 8232 || c.toNat = 8233 ||
  c.toNat = 8239 || c.toNat = 8287 || c.toNat = 12288 || c.toNat = 65279

/-- ASCII decimal digit, the class 0-9. -/
def isDigitChar (c : Char) : Bool := 48 ≤ c.toNat && c.toNat ≤ 57

/-- ASCII letter, the class a-zA-Z. -/
def isAsciiLetter (c : Char) : Bool :=
  (65 ≤ c.toNat && c.toNat ≤ 90) || (97 ≤ c.toNat && c.toNat ≤ 122)

/-- The JS regex word class: letters, digits and underscore. -/
def isWordChar (c : Char) : Bool := isAsciiLetter c || isDigitChar c || c = '_'

/-- JavaScript String.prototype.trim on a character list: drop JS whitespace
from both ends. -/
def jsTrim (l : List Char) : List Char :=
  ((l.dropWhile isJsWhitespace).reverse.dropWhile isJsWhitespace).reverse

/-- JavaScript String.prototype.trim. -/
def jsTrimStr (s : String) : String := String.mk (jsTrim s.data)

/-- Generic error test for Except results (the JS code throws; the embedding
returns Except, so a thrown ValidationError is an error value here). -/
def isErr {ε α : Type} : Except ε α → Bool
  | Except.error _ => true
  | Except.ok _ => false

/-! ## validation.server.ts -/

/-- The character class of validateKeyword's regex test, translated from the
source regex: letters, digits, the JS whitespace class, hyphen, underscore,
parentheses. -/
def allowedKeywordChar (c : Char) : Bool :=
  isAsciiLetter c || isDigitChar c || isJsWhitespace c ||
  c = '-' || c = '_' || c = '(' || c = ')'

/-- Modelled from the spec's words for comparison with the code: the allowed
set as the spec states it is letters, digits, the plain space character,
hyphen, underscore and parentheses (no other whitespace). -/
def specAllowedChar (c : Char) : Bool :=
  isAsciiLetter c || isDigitChar c || c = ' ' ||
  c = '-' || c = '_' || c = '(' || c = ')'

/-- validateKeyword from validation.server.ts: require non-empty input, trim,
check length 1..100, then test the whole trimmed string against the keyword
character class (the regex anchored on both sides with a plus quantifier). -/
def validateKeyword (keyword : String) : Except String String :=
  if keyword = "" then Except.error "Keyword is required"
  else
    let trimmed := jsTrimStr keyword
    if trimmed.data.length = 0 ∨ trimmed.data.length > 100 then
      Except.error "Keyword must be 1-100 characters"
    else if trimmed.data ≠ [] ∧ trimmed.data.all allowedKeywordChar then
      Except.ok trimmed
    else Except.error "Keyword contains invalid characters"

/-- The secondary-keywords character class: the keyword class plus comma. -/
def allowedSecondaryChar (c : Char) : Bool := allowedKeywordChar c || c = ','

/-- validateSecondaryKeywords from validation.server.ts: empty input is
allowed and returns the empty string; otherwise trim, bound the length by
500 and test the character class. -/
def validateSecondaryKeywords (keywords : String) : Except String String :=
  if keywords = "" then Except.ok ""
  else
    let trimmed := jsTrimStr keywords
    if trimmed.data.length > 500 then
      Except.error "Secondary keywords too long (max 500 characters)"
    else if trimmed.data ≠ [] ∧ trimmed.data.all allowedSecondaryChar then
      Except.ok trimmed
    else Except.error "Secondary keywords contain invalid characters"

def validSearchIntents : List String := ["informational", "commercial", "transactional"]

def validTones : List String := ["authoritative", "casual", "formal", "friendly"]

def validAudienceLevels : List String := ["beginner", "intermediate", "advanced"]

def validCountries : List String := ["US", "UK", "CA", "AU", "IN", "DE", "FR", "ES"]

/-- validateSearchIntent: enum membership. -/
def validateSearchIntent (intent : String) : Except String String :=
  if validSearchIntents.contains intent then Except.ok intent
  else Except.error ("Invalid search intent: " ++ intent)

/-- validateTone: enum membership. -/
def validateTone (tone : String) : Except String String :=
  if validTones.contains tone then Except.ok tone
  else Except.error ("Invalid tone: " ++ tone)

/-- validateAudienceLevel: enum membership. -/
def validateAudienceLevel (level : String) : Except String String :=
  if validAudienceLevels.contains level then Except.ok level
  else Except.error ("Invalid audience level: " ++ level)

/-- validateCountry: enum membership. -/
def validateCountry (country : String) : Except String String :=
  if validCountries.contains country then Except.ok country
  else Except.error ("Invalid country: " ++ country)

/-- Value of a list of decimal digit characters, most significant first. -/
def digitsToNat (l : List Char) : Nat :=
  l.foldl (fun a c => a * 10 + (c.toNat - 48)) 0

/-- Digit-prefix step of parseInt: the longest prefix of decimal digits,
NaN (here: none) when that prefix is empty. -/
def jsParseDigits (sign : Int) (l : List Char) : Option Int :=
  if l.takeWhile isDigitChar = [] then none
  else some (sign * Int.ofNat (digitsToNat (l.takeWhile isDigitChar)))

/-- Sign step of parseInt: one optional leading plus or minus sign. -/
def jsParseIntAux : List Char → Option Int
  | [] => none
  | c :: r =>
    if c = '-' then jsParseDigits (-1) r
    else if c = '+' then jsParseDigits 1 r
    else jsParseDigits 1 (c :: r)

/-- JavaScript parseInt with radix 10: skip leading whitespace, take an
optional sign, then the longest prefix of decimal digits.  Everything after
the digit prefix is ignored. -/
def jsParseInt (l : List Char) : Option Int :=
  jsParseIntAux (l.dropWhile isJsWhitespace)

/-- Range check of validateWordCount applied to the parseInt result. -/
def wordCountOf : Option Int → Except String Int
  | none => Except.error "Word count must be 500-5000"
  | some n =>
    if n < 500 ∨ n > 5000 then Except.error "Word count must be 500-5000"
    else Except.ok n

/-- validateWordCount from validation.server.ts: parseInt(count, 10) then an
inclusive range check 500..5000. -/
def validateWordCount (count : String) : Except String Int :=
  wordCountOf (jsParseInt count.data)

/-! ## Claim C5 (validateKeyword), corrected

The positive half of the claim holds: every string whose trimmed form has
length 1..100 over the spec's allowed set (letters, digits, space, hyphen,
underscore, parentheses) is returned trimmed.  The negative half fails on
the code: the source regex uses the JS whitespace class, so a keyword with
an interior tab character (outside the claimed allowed set) is accepted.
The amended negative half replaces "space" by the whole JS whitespace class.
-/

def kwWithTab : String := "a\tb"

def kwHello : String := "hello"

def kwAngle : String := "a<b"

/-! ## Claim C6 (validateWordCount range and boundaries), confirmed -/

def wc500 : String := "500"

def wc5000 : String := "5000"

def wc499 : String := "499"

def wcAbc : String := "abc"

def wcDigits : List Char := ['1', '5', '0', '0']

def wcGarbage : List Char := ['a', 'b', 'c']

/-! ## rateLimit.server.ts

The in-memory store is a list of key/record pairs; a key is the string
shop-colon-action built by the source.  In JavaScript the record obtained
from the Map is a reference, so record.count++ persists in the store even on
the throttled path, which returns before the explicit set; the embedding
writes the incremented record back in both branches to model this aliasing.
A fresh record (no entry, or expired window) is a new object and is only
stored by the explicit set on the non-throttled path.
-/

/-- The entry stored per shop/action key: invocation count and the epoch
millisecond at which the window resets. -/
structure RLRecord where
  count : Nat
  resetAt : Nat
deriving DecidableEq

/-- The two actions of the RATE_LIMITS table. -/
inductive RLAction where
  | blogGeneration : RLAction
  | researchTopics : RLAction
deriving DecidableEq

/-- RATE_LIMITS max per action: 10 for blog-generation, 2 for research-topics. -/
def RLAction.maxCount : RLAction → Nat
  | RLAction.blogGeneration => 10
  | RLAction.researchTopics => 2

/-- RATE_LIMITS windowMs per action: one hour, one day. -/
def RLAction.windowMs : RLAction → Nat
  | RLAction.blogGeneration => 3600000
  | RLAction.researchTopics => 86400000

/-- The action's key string as spelled in the source table. -/
def RLAction.keyName : RLAction → String
  | RLAction.blogGeneration => "blog-generation"
  | RLAction.researchTopics => "research-topics"

/-- The in-memory rateLimitStore Map. -/
def RLStore : Type := List (String × RLRecord)

/-- Map.get. -/
def getRL (store : RLStore) (k : String) : Option RLRecord :=
  match store with
  | [] => none
  | (k2, r) :: rest => if k2 = k then some r else getRL rest k

/-- Map.set. -/
def setRL (store : RLStore) (k : String) (r : RLRecord) : RLStore :=
  match store with
  | [] => [(k, r)]
  | (k2, r2) :: rest => if k2 = k then (k, r) :: rest else (k2, r2) :: setRL rest k r

/-- The throttle message built from the remaining window in milliseconds,
Math.ceil of the division by 1000. -/
def throttleMsg (deltaMs : Nat) : String :=
  "Rate limit exceeded. Try again in " ++ toString ((deltaMs + 999) / 1000) ++ " seconds."

/-- The fresh-record path of rateLimitCheck: no entry, or an expired window.
The record is a new object (count zero then incremented to one) and reaches
the store only through the final set on the non-throttled path. -/
def rlFresh (store : RLStore) (key : String) (a : RLAction) (now : Nat) :
    Option String × RLStore :=
  if 1 > a.maxCount then (some (throttleMsg (now + a.windowMs - now)), store)
  else (none, setRL store key ⟨1, now + a.windowMs⟩)

/-- The live-record path of rateLimitCheck.  In JS the record is a reference
into the Map, so record.count++ persists even when the throttled path
returns before the explicit set; the embedding therefore writes the
incremented record back on both branches. -/
def rlLive (store : RLStore) (key : String) (a : RLAction) (now : Nat) (r : RLRecord) :
    Option String × RLStore :=
  let rec1 : RLRecord := ⟨r.count + 1, r.resetAt⟩
  let store1 := setRL store key rec1
  if rec1.count > a.maxCount then (some (throttleMsg (rec1.resetAt - now)), store1)
  else (none, setRL store1 key rec1)

/-- Dispatch on the Map lookup: a missing record, or one whose resetAt is
strictly in the past, takes the fresh path; otherwise the live path. -/
def rlStep (store : RLStore) (key : String) (a : RLAction) (now : Nat) :
    Option RLRecord → Option String × RLStore
  | some r => if r.resetAt < now then rlFresh store key a now else rlLive store key a now r
  | none => rlFresh store key a now

/-- rateLimitCheck from rateLimit.server.ts.  Look up the shop-colon-action
key; a missing or expired record is replaced by a fresh one; the count is
incremented; when the count exceeds the action's max the throttle message is
returned, otherwise null (none). -/
def rateLimitCheck (store : RLStore) (shop : String) (action : RLAction) (now : Nat) :
    Option String × RLStore :=
  rlStep store (shop ++ ":" ++ action.keyName) action now
    (getRL store (shop ++ ":" ++ action.keyName))

/-- A sequence of rateLimitCheck calls at the given times, threading the
store and collecting the returned messages. -/
def runCalls (store : RLStore) (shop : String) (a : RLAction) : List Nat → List (Option String) × RLStore
  | [] => ([], store)
  | t :: ts =>
    let p := rateLimitCheck store shop a t
    let q := runCalls p.2 shop a ts
    (p.1 :: q.1, q.2)

def wShop : String := "shop1"

def wTail : List Nat := [1, 2]

/-! ## Slug derivation (app.generate-blog.tsx, article handle)

The source derives a slug from the selected title by toLowerCase, then
replacing every run of characters outside a-z0-9 with a single hyphen
(a global regex with a plus quantifier), then stripping one leading and one
trailing hyphen (a global regex alternating start-anchored and end-anchored
single hyphens).  The spec words the last step as trimming leading and
trailing hyphens; the two agree because the collapse step never produces
two adjacent hyphens.
-/

/-- Lower-case ASCII letter or digit, the class a-z0-9. -/
def isLowerAlnum (c : Char) : Bool :=
  (97 ≤ c.toNat && c.toNat ≤ 122) || isDigitChar c

/-- Replace every maximal run of characters outside a-z0-9 by one hyphen. -/
def collapseRuns : List Char → List Char
  | [] => []
  | c :: rest =>
    if isLowerAlnum c then c :: collapseRuns rest
    else '-' :: collapseRuns (rest.dropWhile (fun d => !isLowerAlnum d))
termination_by l => l.length
decreasing_by
  · simp_arith
  · simp only [List.length_cons]
    exact Nat.lt_succ_of_le ((List.dropWhile_sublist _).length_le)

/-- One application of the start-anchored alternative of the trim regex:
remove a single leading hyphen when present. -/
def dropOneLeadHyphen : List Char → List Char
  | [] => []
  | c :: rest => if c == '-' then rest else c :: rest

/-- The trim step as the source regex performs it: at most one leading and
one trailing hyphen are removed. -/
def codeSlugTrim (l : List Char) : List Char :=
  (dropOneLeadHyphen ((dropOneLeadHyphen l).reverse)).reverse

/-- Modelled from the spec's words: trim all leading and trailing hyphens. -/
def specTrimHyphens (l : List Char) : List Char :=
  ((l.dropWhile (fun c => c == '-')).reverse.dropWhile (fun c => c == '-')).reverse

/-- The slug pipeline as the source computes it. -/
def deriveSlug (title : String) : String :=
  String.mk (codeSlugTrim (collapseRuns (title.data.map Char.toLower)))

/-- Modelled from the spec's words: the same pipeline with trim-all-hyphens
as the last step. -/
def specDeriveSlug (title : String) : String :=
  String.mk (specTrimHyphens (collapseRuns (title.data.map Char.toLower)))

/-- Adjacent characters are not both hyphens. -/
def nonAdjHyphens (a b : Char) : Prop := ¬(a = '-' ∧ b = '-')

/-! ## JSON values and JSON.parse

The payload recovered from the provider text is a JSON object.  The model
is a small JSON value type with JS object semantics for field access
(missing key is undefined, duplicate keys resolve to the last one) and JS
truthiness (empty string, zero, false, null and undefined are falsy; arrays
and objects, also empty ones, are truthy).  The parser is a fuel-indexed
recursive-descent JSON.parse; escape handling covers the common short
escapes, and numeric literals are restricted to integers, which is the
fragment the payloads of the spec's scenarios use.
-/

def lbrace : Char := Char.ofNat 123

def rbrace : Char := Char.ofNat 125

def btick : Char := Char.ofNat 96

inductive Json where
  | str : String → Json
  | num : Int → Json
  | bool : Bool → Json
  | null : Json
  | arr : List Json → Json
  | obj : List (String × Json) → Json

/-- JS truthiness of a JSON value. -/
def Json.truthy : Json → Bool
  | Json.str s => s != ""
  | Json.num n => n != 0
  | Json.bool b => b
  | Json.null => false
  | Json.arr _ => true
  | Json.obj _ => true

/-- JS property access blogData[field]: objects look the key up with
last-occurrence-wins, every other value has no properties. -/
def jget : Json → String → Option Json
  | Json.obj ms, k =>
    match ms.reverse.find? (fun p => p.1 == k) with
    | none => none
    | some p => some p.2
  | _, _ => none

/-- Truthiness of a possibly-undefined value. -/
def truthyOpt : Option Json → Bool
  | none => false
  | some j => j.truthy

/-- The string content of a value, empty for non-strings. -/
def jstrOpt : Option Json → String
  | some (Json.str s) => s
  | _ => ""

/-- JSON insignificant whitespace. -/
def isJsonWs (c : Char) : Bool := c = ' ' || c = '\t' || c = '\n' || c = '\r'

def skipWs (l : List Char) : List Char := l.dropWhile isJsonWs

/-- The common short escapes of JSON strings. -/
def escChar (e : Char) : Option Char :=
  if e = '"' then some '"'
  else if e = '\\' then some '\\'
  else if e = '/' then some '/'
  else if e = 'n' then some '\n'
  else if e = 't' then some '\t'
  else if e = 'r' then some '\r'
  else if e = 'b' then some (Char.ofNat 8)
  else if e = 'f' then some (Char.ofNat 12)
  else none

/-- Body of a JSON string after the opening quote: content up to the closing
quote, plus the remaining input. -/
def parseStringBody : List Char → Option (List Char × List Char)
  | [] => none
  | c :: rest =>
    if c = '"' then some ([], rest)
    else if c = '\\' then
      match rest with
      | [] => none
      | e :: rest2 =>
        match escChar e with
        | none => none
        | some d =>
          match parseStringBody rest2 with
          | none => none
          | some p => some (d :: p.1, p.2)
    else
      match parseStringBody rest with
      | none => none
      | some p => some (c :: p.1, p.2)

/-- JSON numeric literal, integer fragment: optional minus, digit run. -/
def parseNumber (s : List Char) : Option (Json × List Char) :=
  match s with
  | [] => none
  | c :: rest =>
    if c = '-' then
      if rest.takeWhile isDigitChar = [] then none
      else some (Json.num (-(Int.ofNat (digitsToNat (rest.takeWhile isDigitChar)))),
                 rest.drop (rest.takeWhile isDigitChar).length)
    else
      if (c :: rest).takeWhile isDigitChar = [] then none
      else some (Json.num (Int.ofNat (digitsToNat ((c :: rest).takeWhile isDigitChar))),
                 (c :: rest).drop ((c :: rest).takeWhile isDigitChar).length)

mutual

/-- One JSON value, by recursive descent with a fuel bound. -/
def parseVal : Nat → List Char → Option (Json × List Char)
  | 0, _ => none
  | fuel + 1, s =>
    match skipWs s with
    | [] => none
    | c :: rest =>
      if c = lbrace then
        match skipWs rest with
        | [] => none
        | d :: r2 =>
          if d = rbrace then some (Json.obj [], r2)
          else
            match parseMembers fuel (d :: r2) with
            | none => none
            | some p => some (Json.obj p.1, p.2)
      else if c = '[' then
        match skipWs rest with
        | [] => none
        | d :: r2 =>
          if d = ']' then some (Json.arr [], r2)
          else
            match parseItems fuel (d :: r2) with
            | none => none
            | some p => some (Json.arr p.1, p.2)
      else if c = '"' then
        match parseStringBody rest with
        | none => none
        | some p => some (Json.str (String.mk p.1), p.2)
      else if c = 't' then
        match rest with
        | 'r' :: 'u' :: 'e' :: r2 => some (Json.bool true, r2)
        | _ => none
      else if c = 'f' then
        match rest with
        | 'a' :: 'l' :: 's' :: 'e' :: r2 => some (Json.bool false, r2)
        | _ => none
      else if c = 'n' then
        match rest with
        | 'u' :: 'l' :: 'l' :: r2 => some (Json.null, r2)
        | _ => none
      else parseNumber (c :: rest)

/-- One or more key/value members followed by the closing brace. -/
def parseMembers : Nat → List Char → Option (List (String × Json) × List Char)
  | 0, _ => none
  | fuel + 1, s =>
    match skipWs s with
    | [] => none
    | q :: rest =>
      if q = '"' then
        match parseStringBody rest with
        | none => none
        | some kp =>
          match skipWs kp.2 with
          | [] => none
          | colon :: r3 =>
            if colon = ':' then
              match parseVal fuel r3 with
              | none => none
              | some vp =>
                match skipWs vp.2 with
                | [] => none
                | sep :: r5 =>
                  if sep = ',' then
                    match parseMembers fuel r5 with
                    | none => none
                    | some mp => some ((String.mk kp.1, vp.1) :: mp.1, mp.2)
                  else if sep = rbrace then some ([(String.mk kp.1, vp.1)], r5)
                  else none
            else none
      else none

/-- One or more array items followed by the closing bracket. -/
def parseItems : Nat → List Char → Option (List Json × List Char)
  | 0, _ => none
  | fuel + 1, s =>
    match parseVal fuel s with
    | none => none
    | some vp =>
      match skipWs vp.2 with
      | [] => none
      | sep :: r2 =>
        if sep = ',' then
          match parseItems fuel r2 with
          | none => none
          | some ip => some (vp.1 :: ip.1, ip.2)
        else if sep = ']' then some ([vp.1], r2)
        else none

end

/-- JSON.parse: one value, then only whitespace may remain. -/
def parseJson (s : List Char) : Option Json :=
  match parseVal (s.length + 1) s with
  | none => none
  | some p => if skipWs p.2 = [] then some p.1 else none

/-! ## Payload extraction (app.generate-blog.tsx, lines 427-450)

The raw provider text is cleaned (one leading code fence of three backticks
plus a word-character language tag plus an optional newline, one trailing
fence of an optional newline plus three backticks, then trim), then the
anchored-at-end brace region is tried first and the anywhere brace region is
the fallback; with no brace region the handler throws the no-JSON error.
-/

/-- Remove one leading newline (the optional newline of the fence regex). -/
def dropLeadingNewline : List Char → List Char
  | [] => []
  | c :: r => if c = '\n' then r else c :: r

/-- Strip the leading code-fence marker when the text starts with three
backticks: also drop the word-character language tag and one newline. -/
def stripLeadingFence (s : List Char) : List Char :=
  match s with
  | a :: b :: c :: rest =>
    if a = btick ∧ b = btick ∧ c = btick then dropLeadingNewline (rest.dropWhile isWordChar)
    else a :: b :: c :: rest
  | l => l

/-- Strip the trailing code-fence marker when the text ends with three
backticks: also drop one preceding newline. -/
def stripTrailingFence (s : List Char) : List Char :=
  match s.reverse with
  | a :: b :: c :: rest =>
    if a = btick ∧ b = btick ∧ c = btick then (dropLeadingNewline rest).reverse
    else s
  | _ => s

/-- The cleanedText of the handler: fence stripping then trim. -/
def cleanText (l : List Char) : List Char := jsTrim (stripTrailingFence (stripLeadingFence l))

/-- The anchored-at-end regex: an open brace anywhere with the close brace
as the very last character; the match runs from the first open brace to the
end of the text. -/
def matchAnchored (s : List Char) : Option (List Char) :=
  if s.getLast? = some rbrace ∧ lbrace ∈ s then
    some (s.dropWhile (fun c => c != lbrace))
  else none

/-- The text from the start through its last close brace. -/
def upToLastRBrace (t : List Char) : List Char :=
  ((t.reverse).dropWhile (fun d => d != rbrace)).reverse

/-- The anywhere regex: greedy from the first open brace to the last close
brace after it. -/
def matchAnywhere (s : List Char) : Option (List Char) :=
  if s.dropWhile (fun c => c != lbrace) = [] then none
  else if upToLastRBrace (s.dropWhile (fun c => c != lbrace)) = [] then none
  else some (upToLastRBrace (s.dropWhile (fun c => c != lbrace)))

/-- First alternative wins. -/
def orElseOpt : Option (List Char) → Option (List Char) → Option (List Char)
  | some r, _ => some r
  | none, fallback => fallback

/-- The two-tier extraction: anchored-at-end first, anywhere as fallback. -/
def extractJson (s : List Char) : Option (List Char) :=
  orElseOpt (matchAnchored s) (matchAnywhere s)

/-! ## Required-field validation and the parse pipeline -/

def fSelectedTitle : String := "selectedTitle"

def fArticleContent : String := "articleContent"

def fMetaDescription : String := "metaDescription"

def fCompetitiveIntelligence : String := "competitiveIntelligence"

def fDifferentiationStrategy : String := "differentiationStrategy"

def fEeatSignals : String := "eeatSignals"

def fTechnicalSEOChecklist : String := "technicalSEOChecklist"

def fContent : String := "content"

def fUrlSlug : String := "urlSlug"

def fTags : String := "tags"

/-- The handler's requiredFields list, in source order. -/
def requiredFields : List String :=
  [fSelectedTitle, fArticleContent, fMetaDescription, fCompetitiveIntelligence,
   fDifferentiationStrategy, fEeatSignals, fTechnicalSEOChecklist]

/-- The fields of requiredFields whose value is JS-falsy (absent, empty
string, zero, false, null). -/
def missingFields (j : Json) : List String :=
  requiredFields.filter (fun f => !truthyOpt (jget j f))

/-- The missing-fields error message, naming the missing keys. -/
def missingMsg (fields : List String) : String :=
  "AI response missing critical fields: " ++ String.intercalate ", " fields ++
  ". The generated content is incomplete. Please try again."

def noContentMsg : String := "No article content generated. Please try again."

/-- The field-presence validation of the handler: missing required fields
fail with the message naming them; then the articleContent-or-content
fallback must be truthy. -/
def fieldCheck (j : Json) : Except String Unit :=
  if missingFields j = [] then
    if truthyOpt (if truthyOpt (jget j fArticleContent) then jget j fArticleContent
                  else jget j fContent) then Except.ok ()
    else Except.error noContentMsg
  else Except.error (missingMsg (missingFields j))

def noJsonMsg : String :=
  "AI response did not contain valid JSON. This might be a temporary issue. Please try again."

/-- The malformed-JSON message; the character-position detail the source
interpolates out of the engine's SyntaxError text is not modelled. -/
def malformedJsonMsg : String := "Failed to parse AI response. Please try again."

/-- Pipeline tail after JSON.parse. -/
def pipelineOfParse : Option Json → Except String Json
  | none => Except.error malformedJsonMsg
  | some j =>
    match fieldCheck j with
    | Except.error m => Except.error m
    | Except.ok _ => Except.ok j

/-- Pipeline tail after extraction. -/
def pipelineOfExtract : Option (List Char) → Except String Json
  | none => Except.error noJsonMsg
  | some cs => pipelineOfParse (parseJson cs)

/-- The whole parse block of the handler: clean, extract, JSON.parse,
validate required fields. -/
def parsePipeline (text : String) : Except String Json :=
  pipelineOfExtract (extractJson (cleanText text.data))

/-! ## Claim C1 (required-field validation), corrected

The handler requires seven fields, not three: selectedTitle, articleContent
and metaDescription, and also the strategy/analysis blocks
competitiveIntelligence, differentiationStrategy, eeatSignals and
technicalSEOChecklist.  A payload with the three core fields present and
non-empty but without the strategy blocks fails, refuting the claim that
auxiliary strategy/analysis fields never block success.
-/

def strA : String := "A"

def strB : String := "B"

def strC : String := "C"

/-- A payload carrying exactly the three fields the claim calls required. -/
def cPayload : Json :=
  Json.obj [(fSelectedTitle, Json.str strA), (fArticleContent, Json.str strB),
    (fMetaDescription, Json.str strC)]

def cPayloadNoContent : Json :=
  Json.obj [(fSelectedTitle, Json.str strA), (fMetaDescription, Json.str strC)]

/-! ## Claim C2 (extraction of fenced and prose-wrapped payloads), confirmed -/

def c2Inner : String :=
  "\x7b\"selectedTitle\":\"A\",\"articleContent\":\"B\",\"metaDescription\":\"C\"\x7d"

def c2Fenced : String := "```json\n" ++ c2Inner ++ "\n```"

def c2Prose : String := "Sure! Here you go: " ++ c2Inner ++ " Hope that helps!"

def c2Expected : Json :=
  Json.obj [(fSelectedTitle, Json.str strA), (fArticleContent, Json.str strB),
    (fMetaDescription, Json.str strC)]

def noBraceText : String := "The model returned prose with no JSON at all."

/-! ## The POST action of app.generate-blog.tsx

The handler is modelled as a function of its collaborators: the rate-limit
result for the (shop, blog-generation) key, the raw form fields, the text
the AI provider returns, and a content-store stub (existing blogs, and the
results of blogCreate and articleCreate).  Alongside the HTTP-level response
it returns the ordered trace of collaborator invocations, so that theorems
can state which collaborators a path does or does not reach.
-/

/-- The raw form fields the handler reads. -/
structure FormInput where
  keyword : String
  secondaryKeywords : String
  searchIntent : String
  targetCountry : String
  audienceLevel : String
  tone : String
  wordCount : String

/-- The validated values, in the source's validation order. -/
structure ValidatedRequest where
  keyword : String
  secondaryKeywords : String
  searchIntent : String
  tone : String
  audienceLevel : String
  targetCountry : String
  wordCount : Int

/-- Step 2 of the handler: validate all inputs, in source order; the first
thrown ValidationError aborts. -/
def runValidation (f : FormInput) : Except String ValidatedRequest := do
  let k ← validateKeyword f.keyword
  let sk ← validateSecondaryKeywords f.secondaryKeywords
  let si ← validateSearchIntent f.searchIntent
  let tn ← validateTone f.tone
  let al ← validateAudienceLevel f.audienceLevel
  let co ← validateCountry f.targetCountry
  let wc ← validateWordCount f.wordCount
  Except.ok ⟨k, sk, si, tn, al, co, wc⟩

/-- The articleCreate input built by the handler; draft corresponds to
isPublished false. -/
structure ArticleInput where
  blogId : String
  title : String
  body : String
  summary : String
  handle : String
  tags : List String
  isPublished : Bool
deriving DecidableEq

/-- Collaborator invocations, in order: the form-field validators, the AI
provider, the content-store blog query, blogCreate, articleCreate. -/
inductive Effect where
  | validate : Effect
  | provider : Effect
  | listBlogs : Effect
  | createBlog : String → Effect
  | createArticle : ArticleInput → Effect
deriving DecidableEq

/-- The content-store stub: the ids the blogs(first: 1) query returns, and
the outcomes of blogCreate and articleCreate (userErrors or created data). -/
structure StoreStub where
  blogs : List String
  createBlogResult : String → Except (List String) String
  createArticleResult : ArticleInput → Except (List String) (String × String)

/-- The JSON-serializable response with its HTTP status. -/
structure ActionResponse where
  status : Nat
  error : Option String
  success : Bool
  articleId : Option String
  articleTitle : Option String
deriving DecidableEq

def defaultBlogTitle : String := "News"

def failedCreateBlogMsg : String := "Failed to create blog"

def failedCreateArticleMsg : String := "Failed to create article: "

def generationErrorMsg : String := "Generation Error: "

/-- The article body: blogData.articleContent or blogData.content or the
empty string (step 9 of the handler). -/
def contentValue (j : Json) : Option Json :=
  if truthyOpt (jget j fArticleContent) then jget j fArticleContent
  else if truthyOpt (jget j fContent) then jget j fContent
  else some (Json.str "")

/-- The article handle: blogData.urlSlug when truthy, else the slug derived
from the selected title. -/
def articleSlug (j : Json) : String :=
  if truthyOpt (jget j fUrlSlug) then jstrOpt (jget j fUrlSlug)
  else deriveSlug (jstrOpt (jget j fSelectedTitle))

def jstr1 : Json → String
  | Json.str s => s
  | _ => ""

/-- The tags: blogData.tags or the empty list. -/
def tagsOf (j : Json) : List String :=
  match jget j fTags with
  | some (Json.arr xs) => xs.map jstr1
  | _ => []

/-- JS split on the slash character. -/
def splitOnSlash : List Char → List (List Char)
  | [] => [[]]
  | c :: rest =>
    match splitOnSlash rest with
    | h :: t => if c = '/' then [] :: h :: t else (c :: h) :: t
    | [] => [[c]]

/-- gid.split of the slash then pop: the bare trailing path segment. -/
def lastSegment (s : String) : String :=
  String.mk (((splitOnSlash s.data).getLast?).getD [])

/-- Steps 9-12 of the handler: build the articleCreate input, submit it, map
userErrors to the 500 response with the first message, and on success return
the bare trailing segment of the returned id with the returned title. -/
def submitArticle (blogData : Json) (blogId : String) (store : StoreStub)
    (effs : List Effect) : ActionResponse × List Effect :=
  let input : ArticleInput :=
    ⟨blogId, jstrOpt (jget blogData fSelectedTitle), jstrOpt (contentValue blogData),
     jstrOpt (jget blogData fMetaDescription), articleSlug blogData, tagsOf blogData, false⟩
  match store.createArticleResult input with
  | Except.error errs =>
    (⟨500, some (failedCreateArticleMsg ++ (errs.head?).getD ""), false, none, none⟩,
     effs ++ [Effect.createArticle input])
  | Except.ok r =>
    (⟨200, none, true, some (lastSegment r.1), some r.2⟩, effs ++ [Effect.createArticle input])

/-- The POST action: rate limit first (429 with the throttle message, before
any other work), then validation (400), then the provider call and the parse
pipeline (500 with the Generation Error prefix), then find-or-create the
blog (a fixed News title; 500 on userErrors), then article submission. -/
def action (rl : Option String) (form : FormInput) (providerText : String)
    (store : StoreStub) : ActionResponse × List Effect :=
  match rl with
  | some msg => (⟨429, some msg, false, none, none⟩, [])
  | none =>
    match runValidation form with
    | Except.error m => (⟨400, some m, false, none, none⟩, [Effect.validate])
    | Except.ok _ =>
      match parsePipeline providerText with
      | Except.error m =>
        (⟨500, some (generationErrorMsg ++ m), false, none, none⟩,
         [Effect.validate, Effect.provider])
      | Except.ok blogData =>
        match store.blogs.head? with
        | some bid =>
          submitArticle blogData bid store [Effect.validate, Effect.provider, Effect.listBlogs]
        | none =>
          match store.createBlogResult defaultBlogTitle with
          | Except.error _ =>
            (⟨500, some failedCreateBlogMsg, false, none, none⟩,
             [Effect.validate, Effect.provider, Effect.listBlogs,
              Effect.createBlog defaultBlogTitle])
          | Except.ok bid =>
            submitArticle blogData bid store
              [Effect.validate, Effect.provider, Effect.listBlogs,
               Effect.createBlog defaultBlogTitle]

/-! ## Claim C4 (end-to-end success scenario), confirmed -/

def c4Keyword : String := "sustainable fashion"

def c4Intent : String := "informational"

def c4Country : String := "US"

def c4Level : String := "beginner"

def c4Tone : String := "authoritative"

def c4WordCount : String := "1500"

def c4Form : FormInput :=
  ⟨c4Keyword, "", c4Intent, c4Country, c4Level, c4Tone, c4WordCount⟩

/-- A well-formed provider payload with all required fields. -/
def c4ProviderText : String :=
  "\x7b\"selectedTitle\":\"T\",\"articleContent\":\"B\",\"metaDescription\":\"M\"," ++
  "\"urlSlug\":\"t-slug\",\"tags\":[\"x\"]," ++
  "\"competitiveIntelligence\":\x7b\"a\":\"b\"\x7d," ++
  "\"differentiationStrategy\":\x7b\"a\":\"b\"\x7d," ++
  "\"eeatSignals\":\x7b\"a\":\"b\"\x7d," ++
  "\"technicalSEOChecklist\":\x7b\"a\":\"b\"\x7d\x7d"

def c4BlogGid : String := "gid://shopify/Blog/99"

def c4ExistingBlogGid : String := "gid://shopify/Blog/7"

def c4ArticleGid : String := "gid://shopify/OnlineStoreArticle/12345"

/-- Store stub with no existing blogs; creations succeed, articleCreate
echoes the requested title. -/
def c4Store : StoreStub :=
  ⟨[], fun _ => Except.ok c4BlogGid, fun a => Except.ok (c4ArticleGid, a.title)⟩

/-- The same stub with an existing blog. -/
def c4StoreExisting : StoreStub :=
  ⟨[c4ExistingBlogGid], fun _ => Except.ok c4BlogGid, fun a => Except.ok (c4ArticleGid, a.title)⟩

def c4Title : String := "T"

def c4Body : String := "B"

def c4Meta : String := "M"

def c4Slug : String := "t-slug"

def c4Tag : String := "x"

def c4BareId : String := "12345"

def c4Article : ArticleInput :=
  ⟨c4BlogGid, c4Title, c4Body, c4Meta, c4Slug, [c4Tag], false⟩

def c4ArticleExisting : ArticleInput :=
  ⟨c4ExistingBlogGid, c4Title, c4Body, c4Meta, c4Slug, [c4Tag], false⟩

/-! ## Helper lemmas about dropWhile / takeWhile and the character classes -/

theorem mem_of_mem_dropWhile {α : Type} {p : α → Bool} {a : α} :
    ∀ {l : List α}, a ∈ l.dropWhile p → a ∈ l := by
  intro l
  induction l with
  | nil => intro h; simp at h
  | cons b t ih =>
    intro h
    rw [List.dropWhile_cons] at h
    by_cases hb : p b = true
    · simp [hb] at h
      exact List.mem_cons_of_mem _ (ih h)
    · simp [hb] at h
      exact List.mem_cons.mpr h

theorem mem_dropWhile_of_neg {α : Type} {p : α → Bool} {a : α} (ha : p a = false) :
    ∀ {l : List α}, a ∈ l → a ∈ l.dropWhile p := by
  intro l
  induction l with
  | nil => intro h; simp at h
  | cons b t ih =>
    intro h
    rw [List.dropWhile_cons]
    by_cases hb : p b = true
    · have : a ∈ t := by
        rcases List.mem_cons.mp h with h1 | h2
        · subst h1; rw [hb] at ha; cases ha
        · exact h2
      simp [hb]
      exact ih this
    · simp [hb]
      exact List.mem_cons.mp h

theorem mem_of_mem_jsTrim {a : Char} {l : List Char} (h : a ∈ jsTrim l) : a ∈ l := by
  unfold jsTrim at h
  rw [List.mem_reverse] at h
  have h2 := mem_of_mem_dropWhile h
  rw [List.mem_reverse] at h2
  exact mem_of_mem_dropWhile h2

theorem mem_jsTrim_of_not_ws {a : Char} {l : List Char}
    (ha : isJsWhitespace a = false) (h : a ∈ l) : a ∈ jsTrim l := by
  unfold jsTrim
  rw [List.mem_reverse]
  apply mem_dropWhile_of_neg ha
  rw [List.mem_reverse]
  exact mem_dropWhile_of_neg ha h

theorem ws_not_digit {c : Char} (h : isJsWhitespace c = true) : isDigitChar c = false := by
  simp only [isJsWhitespace, Bool.or_eq_true, Bool.and_eq_true, decide_eq_true_eq] at h
  simp only [isDigitChar, Bool.and_eq_true, decide_eq_true_eq, Bool.and_eq_false_iff,
    decide_eq_false_iff_not, not_le]
  omega

theorem digit_not_ws {c : Char} (h : isDigitChar c = true) : isJsWhitespace c = false := by
  by_cases hw : isJsWhitespace c = true
  · rw [ws_not_digit hw] at h; cases h
  · simpa using hw

theorem space_is_ws : isJsWhitespace ' ' = true := by decide

theorem spec_allowed_sub {c : Char} (h : specAllowedChar c = true) :
    allowedKeywordChar c = true := by
  simp only [specAllowedChar, Bool.or_eq_true, decide_eq_true_eq] at h
  simp only [allowedKeywordChar, Bool.or_eq_true, decide_eq_true_eq]
  rcases h with ((((((h | h) | h) | h) | h) | h) | h)
  · exact Or.inl (Or.inl (Or.inl (Or.inl (Or.inl (Or.inl h)))))
  · exact Or.inl (Or.inl (Or.inl (Or.inl (Or.inl (Or.inr h)))))
  · subst h; left; left; left; left; right; decide
  · exact Or.inl (Or.inl (Or.inl (Or.inr h)))
  · exact Or.inl (Or.inl (Or.inr h))
  · exact Or.inl (Or.inr h)
  · exact Or.inr h

/-- Claim C5 counterexample: the tab character is outside the claim's allowed
set (letters, digits, space, hyphen, underscore, parentheses), yet
validateKeyword accepts the string containing an interior tab instead of
failing as the claim requires. -/
theorem claim_C5_counterexample :
    specAllowedChar '\t' = false ∧ validateKeyword kwWithTab = Except.ok kwWithTab :=
  ⟨rfl, rfl⟩

/-- Claim C5 amended: validateKeyword returns the trimmed input unchanged for
every string whose trimmed form has length 1..100 over the spec's allowed
set, and fails for every string containing a character outside the source
regex's set, which is letters, digits, JS whitespace (not just the space
character), hyphen, underscore and parentheses. -/
theorem claim_C5_amended :
    (∀ s : String, 1 ≤ (jsTrimStr s).data.length → (jsTrimStr s).data.length ≤ 100 →
      (∀ c ∈ (jsTrimStr s).data, specAllowedChar c = true) →
      validateKeyword s = Except.ok (jsTrimStr s))
    ∧ (∀ s : String, (∃ c ∈ s.data, allowedKeywordChar c = false) →
      isErr (validateKeyword s) = true) := by
  constructor
  · intro s h1 h100 hall
    have hs : s ≠ "" := by
      intro he
      subst he
      simp [jsTrimStr, jsTrim] at h1
    unfold validateKeyword
    rw [if_neg hs]
    have hlen : ¬((jsTrimStr s).data.length = 0 ∨ (jsTrimStr s).data.length > 100) := by
      push_neg
      omega
    rw [if_neg hlen]
    have hne : (jsTrimStr s).data ≠ [] := by
      intro he
      rw [he] at h1
      simp at h1
    have hallb : (jsTrimStr s).data.all allowedKeywordChar = true := by
      rw [List.all_eq_true]
      intro c hc
      exact spec_allowed_sub (hall c hc)
    rw [if_pos ⟨hne, hallb⟩]
  · intro s hex
    rcases hex with ⟨c, hc, hbad⟩
    have hs : s ≠ "" := by
      intro he
      subst he
      simp at hc
    unfold validateKeyword
    rw [if_neg hs]
    by_cases hlen : (jsTrimStr s).data.length = 0 ∨ (jsTrimStr s).data.length > 100
    · rw [if_pos hlen]; rfl
    · rw [if_neg hlen]
      have hcws : isJsWhitespace c = false := by
        by_cases hw : isJsWhitespace c = true
        · exfalso
          have : allowedKeywordChar c = true := by
            simp [allowedKeywordChar, hw]
          rw [this] at hbad; cases hbad
        · simpa using hw
      have hmem : c ∈ (jsTrimStr s).data := by
        simpa [jsTrimStr] using mem_jsTrim_of_not_ws hcws hc
      have : ¬((jsTrimStr s).data ≠ [] ∧ (jsTrimStr s).data.all allowedKeywordChar) := by
        intro hand
        have := (List.all_eq_true.mp hand.2) c hmem
        rw [hbad] at this; cases this
      rw [if_neg this]
      rfl

/-- Claim C5 amended witness: a plain valid keyword is returned as is, and a
keyword containing an angle bracket is rejected. -/
theorem claim_C5_witness :
    validateKeyword kwHello = Except.ok (jsTrimStr kwHello)
    ∧ isErr (validateKeyword kwAngle) = true := by
  constructor
  · exact claim_C5_amended.1 kwHello (by decide) (by decide) (by decide)
  · exact claim_C5_amended.2 kwAngle ⟨'<', by decide, by decide⟩

/-- Claim C6: validateWordCount fails on every input whose parseInt value is
outside the inclusive range 500..5000, fails on input with no parseable
integer at all, and accepts both boundary values. -/
theorem claim_C6 :
    (∀ (s : String) (n : Int), jsParseInt s.data = some n → (n < 500 ∨ n > 5000) →
      isErr (validateWordCount s) = true)
    ∧ (∀ s : String, jsParseInt s.data = none → isErr (validateWordCount s) = true)
    ∧ validateWordCount wc500 = Except.ok 500
    ∧ validateWordCount wc5000 = Except.ok 5000 := by
  refine ⟨?_, ?_, rfl, rfl⟩
  · intro s n hp hout
    unfold validateWordCount
    rw [hp]
    simp [wordCountOf, hout, isErr]
  · intro s hp
    unfold validateWordCount
    rw [hp]
    rfl

/-- Claim C6 witness: 499 is rejected and a non-numeric string is rejected. -/
theorem claim_C6_witness :
    isErr (validateWordCount wc499) = true ∧ isErr (validateWordCount wcAbc) = true := by
  constructor
  · exact claim_C6.1 wc499 499 (by decide) (by decide)
  · exact claim_C6.2.1 wcAbc (by decide)

/-! ## Claim C10 (parseInt prefix semantics), confirmed -/

theorem takeWhile_digits_append {ds rest : List Char}
    (hds : ∀ c ∈ ds, isDigitChar c = true)
    (hrest : rest = [] ∨ ∃ c rest2, rest = c :: rest2 ∧ isDigitChar c = false) :
    (ds ++ rest).takeWhile isDigitChar = ds := by
  induction ds with
  | nil =>
    simp only [List.nil_append]
    rcases hrest with h | ⟨c, rest2, hr, hc⟩
    · subst h; rfl
    · subst hr
      rw [List.takeWhile_cons]
      simp [hc]
  | cons d ds' ih =>
    have hd : isDigitChar d = true := hds d (List.mem_cons_self d ds')
    rw [List.cons_append, List.takeWhile_cons]
    simp only [hd, if_true]
    rw [ih (fun c hc => hds c (List.mem_cons_of_mem d hc))]

/-- Claim C10: validateWordCount accepts any string that is a non-empty run
of digits with value in 500..5000 followed by either nothing or a non-digit
character and arbitrary further text, returning the value of the digit
prefix; the trailing garbage is ignored by parseInt. -/
theorem claim_C10 :
    ∀ (ds rest : List Char) (n : Int), ds ≠ [] →
      (∀ c ∈ ds, isDigitChar c = true) →
      Int.ofNat (digitsToNat ds) = n → 500 ≤ n → n ≤ 5000 →
      (rest = [] ∨ ∃ c rest2, rest = c :: rest2 ∧ isDigitChar c = false) →
      validateWordCount (String.mk (ds ++ rest)) = Except.ok n := by
  intro ds rest n hne hds hval h500 h5000 hrest
  obtain ⟨d, ds', hcons⟩ : ∃ d ds', ds = d :: ds' := by
    cases ds with
    | nil => exact absurd rfl hne
    | cons d ds' => exact ⟨d, ds', rfl⟩
  subst hcons
  have hd : isDigitChar d = true := hds d (List.mem_cons_self d ds')
  have hdminus : d ≠ '-' := by
    intro he; subst he; simp [isDigitChar] at hd
  have hdplus : d ≠ '+' := by
    intro he; subst he; simp [isDigitChar] at hd
  have hparse : jsParseInt (String.mk ((d :: ds') ++ rest)).data = some n := by
    show jsParseInt ((d :: ds') ++ rest) = some n
    unfold jsParseInt
    have hdrop : ((d :: ds') ++ rest).dropWhile isJsWhitespace = (d :: ds') ++ rest := by
      rw [List.cons_append, List.dropWhile_cons, digit_not_ws hd]
      simp
    rw [hdrop, List.cons_append]
    simp only [jsParseIntAux]
    rw [if_neg hdminus, if_neg hdplus]
    unfold jsParseDigits
    rw [← List.cons_append, takeWhile_digits_append hds hrest]
    have hne2 : d :: ds' ≠ [] := by simp
    rw [if_neg hne2, one_mul, hval]
  unfold validateWordCount
  rw [hparse]
  have hin : ¬(n < 500 ∨ n > 5000) := by push_neg; omega
  simp [wordCountOf, hin]

/-- Claim C10 witness: the string 1500abc passes validation with value 1500. -/
theorem claim_C10_witness :
    validateWordCount (String.mk (wcDigits ++ wcGarbage)) = Except.ok 1500 := by
  exact claim_C10 wcDigits wcGarbage 1500 (by decide) (by decide) (by decide)
    (by decide) (by decide) (Or.inr ⟨'a', ['b', 'c'], rfl, by decide⟩)

theorem getRL_setRL (store : RLStore) (k : String) (r : RLRecord) :
    getRL (setRL store k r) k = some r := by
  induction store with
  | nil => simp [setRL, getRL]
  | cons p rest ih =>
    obtain ⟨k2, r2⟩ := p
    by_cases hk : k2 = k
    · simp [setRL, getRL, hk]
    · simp [setRL, getRL, hk]
      exact ih

theorem maxCount_pos (a : RLAction) : 1 ≤ a.maxCount := by
  cases a <;> simp [RLAction.maxCount]

/-- One live-window call: with a live record of count k, the call increments
the count, keeps the reset time, and throttles exactly when the new count
exceeds the max. -/
theorem rateLimitCheck_live (store : RLStore) (shop : String) (a : RLAction)
    (now k r0 : Nat) (hget : getRL store (shop ++ ":" ++ a.keyName) = some ⟨k, r0⟩)
    (hlive : now ≤ r0) :
    (rateLimitCheck store shop a now).1 =
      (if k + 1 > a.maxCount then some (throttleMsg (r0 - now)) else none)
    ∧ getRL (rateLimitCheck store shop a now).2 (shop ++ ":" ++ a.keyName) = some ⟨k + 1, r0⟩ := by
  unfold rateLimitCheck
  rw [hget]
  have hexp : ¬(r0 < now) := by omega
  have hred : rlStep store (shop ++ ":" ++ a.keyName) a now (some ⟨k, r0⟩)
      = (if k + 1 > a.maxCount then
          (some (throttleMsg (r0 - now)), setRL store (shop ++ ":" ++ a.keyName) ⟨k + 1, r0⟩)
        else (none, setRL (setRL store (shop ++ ":" ++ a.keyName) ⟨k + 1, r0⟩)
          (shop ++ ":" ++ a.keyName) ⟨k + 1, r0⟩)) := by
    show (if r0 < now then rlFresh store (shop ++ ":" ++ a.keyName) a now
        else rlLive store (shop ++ ":" ++ a.keyName) a now ⟨k, r0⟩) = _
    rw [if_neg hexp]
    rfl
  rw [hred]
  by_cases hmax : k + 1 > a.maxCount
  · simp only [if_pos hmax]
    exact ⟨trivial, getRL_setRL store _ _⟩
  · simp only [if_neg hmax]
    exact ⟨trivial, getRL_setRL _ _ _⟩

/-- Invariant over a run of calls in a live window starting at count k: each
call returns null exactly while the running count stays within the max, and
the final store holds the total count with the window end unchanged. -/
theorem runCalls_inv (shop : String) (a : RLAction) (r0 : Nat) :
    ∀ (ts : List Nat) (store : RLStore) (k : Nat),
      getRL store (shop ++ ":" ++ a.keyName) = some ⟨k, r0⟩ →
      (∀ t ∈ ts, t ≤ r0) →
      getRL (runCalls store shop a ts).2 (shop ++ ":" ++ a.keyName)
          = some ⟨k + ts.length, r0⟩
      ∧ ∀ i (hi : i < ((runCalls store shop a ts).1).length),
          (((runCalls store shop a ts).1).get ⟨i, hi⟩).isNone
            = decide (k + i + 1 ≤ a.maxCount) := by
  intro ts
  induction ts with
  | nil =>
    intro store k hget hts
    refine ⟨by simpa using hget, ?_⟩
    intro i hi
    simp [runCalls] at hi
  | cons t ts' ih =>
    intro store k hget hts
    have ht : t ≤ r0 := hts t (List.mem_cons_self t ts')
    have hstep := rateLimitCheck_live store shop a t k r0 hget ht
    have hrest := ih (rateLimitCheck store shop a t).2 (k + 1) hstep.2
      (fun t2 ht2 => hts t2 (List.mem_cons_of_mem t ht2))
    constructor
    · show getRL (runCalls (rateLimitCheck store shop a t).2 shop a ts').2 _ = _
      rw [hrest.1]
      have : k + 1 + ts'.length = k + (t :: ts').length := by
        simp only [List.length_cons]
        omega
      rw [this]
    · intro i hi
      match i with
      | 0 =>
        show ((rateLimitCheck store shop a t).1).isNone = decide (k + 0 + 1 ≤ a.maxCount)
        rw [hstep.1]
        by_cases hmax : k + 1 > a.maxCount
        · rw [if_pos hmax]
          simp only [Option.isNone_some]
          have : ¬(k + 0 + 1 ≤ a.maxCount) := by omega
          simp [this]
        · rw [if_neg hmax]
          simp only [Option.isNone_none]
          have : k + 0 + 1 ≤ a.maxCount := by omega
          simp [this]
      | Nat.succ j =>
        have hj : j < ((runCalls (rateLimitCheck store shop a t).2 shop a ts').1).length := by
          have : (runCalls store shop a (t :: ts')).1
              = (rateLimitCheck store shop a t).1
                :: (runCalls (rateLimitCheck store shop a t).2 shop a ts').1 := rfl
          rw [this] at hi
          simpa using Nat.lt_of_succ_lt_succ hi
        have := hrest.2 j hj
        show (((rateLimitCheck store shop a t).1
            :: (runCalls (rateLimitCheck store shop a t).2 shop a ts').1).get
              ⟨j + 1, by simpa using Nat.succ_lt_succ hj⟩).isNone
          = decide (k + (j + 1) + 1 ≤ a.maxCount)
        rw [List.get_cons_succ]
        rw [this]
        have harith : k + 1 + j + 1 = k + (j + 1) + 1 := by omega
        rw [harith]

/-! ## Claim C9 (rate-limit window behaviour), confirmed -/

/-- Claim C9: starting from an empty store, for a fixed shop and action, a
first call at time t0 and further calls all strictly before the window end
t0 + windowMs return null for exactly the first maxCount calls (10 for
blog-generation, 2 for research-topics) and a throttle message for every
later call in the window; a call strictly after the window end finds the
record expired, resets the counter, and returns null again. -/
theorem claim_C9 :
    ∀ (a : RLAction) (shop : String) (t0 : Nat) (ts : List Nat),
      (∀ t ∈ ts, t < t0 + a.windowMs) →
      (∀ i (hi : i < ((runCalls [] shop a (t0 :: ts)).1).length),
        (((runCalls [] shop a (t0 :: ts)).1).get ⟨i, hi⟩).isNone = decide (i < a.maxCount))
      ∧ (∀ t2, t0 + a.windowMs < t2 →
        (rateLimitCheck (runCalls [] shop a (t0 :: ts)).2 shop a t2).1 = none) := by
  intro a shop t0 ts hts
  -- the first call creates the record with count 1 and reset time t0 + windowMs
  have hfirst : rateLimitCheck [] shop a t0
      = (none, [(shop ++ ":" ++ a.keyName, ⟨1, t0 + a.windowMs⟩)]) := by
    have hmax : ¬((1 : Nat) > a.maxCount) := by
      have := maxCount_pos a
      omega
    show rlFresh [] (shop ++ ":" ++ a.keyName) a t0 = _
    unfold rlFresh
    rw [if_neg hmax]
    rfl
  have hget1 : getRL (rateLimitCheck [] shop a t0).2 (shop ++ ":" ++ a.keyName)
      = some ⟨1, t0 + a.windowMs⟩ := by
    rw [hfirst]
    simp [getRL]
  have hrest := runCalls_inv shop a (t0 + a.windowMs) ts (rateLimitCheck [] shop a t0).2 1
    hget1 (fun t ht => Nat.le_of_lt (hts t ht))
  constructor
  · intro i hi
    match i with
    | 0 =>
      show ((rateLimitCheck [] shop a t0).1).isNone = decide (0 < a.maxCount)
      rw [hfirst]
      have := maxCount_pos a
      simp only [Option.isNone_none]
      have hpos : 0 < a.maxCount := by omega
      simp [hpos]
    | Nat.succ j =>
      have hj : j < ((runCalls (rateLimitCheck [] shop a t0).2 shop a ts).1).length := by
        have hshape : (runCalls [] shop a (t0 :: ts)).1
            = (rateLimitCheck [] shop a t0).1
              :: (runCalls (rateLimitCheck [] shop a t0).2 shop a ts).1 := rfl
        rw [hshape] at hi
        simpa using Nat.lt_of_succ_lt_succ hi
      have hval := hrest.2 j hj
      show (((rateLimitCheck [] shop a t0).1
          :: (runCalls (rateLimitCheck [] shop a t0).2 shop a ts).1).get
            ⟨j + 1, by simpa using Nat.succ_lt_succ hj⟩).isNone
        = decide (j + 1 < a.maxCount)
      rw [List.get_cons_succ, hval]
      exact decide_eq_decide.mpr (by omega)
  · intro t2 ht2
    have hgetF : getRL (runCalls [] shop a (t0 :: ts)).2 (shop ++ ":" ++ a.keyName)
        = some ⟨1 + ts.length, t0 + a.windowMs⟩ := by
      show getRL (runCalls (rateLimitCheck [] shop a t0).2 shop a ts).2 _ = _
      exact hrest.1
    unfold rateLimitCheck
    rw [hgetF]
    have hred : rlStep (runCalls [] shop a (t0 :: ts)).2 (shop ++ ":" ++ a.keyName) a t2
        (some ⟨1 + ts.length, t0 + a.windowMs⟩)
        = rlFresh (runCalls [] shop a (t0 :: ts)).2 (shop ++ ":" ++ a.keyName) a t2 := by
      show (if t0 + a.windowMs < t2 then
          rlFresh (runCalls [] shop a (t0 :: ts)).2 (shop ++ ":" ++ a.keyName) a t2
        else rlLive (runCalls [] shop a (t0 :: ts)).2 (shop ++ ":" ++ a.keyName) a t2
          ⟨1 + ts.length, t0 + a.windowMs⟩)
        = rlFresh (runCalls [] shop a (t0 :: ts)).2 (shop ++ ":" ++ a.keyName) a t2
      rw [if_pos ht2]
    rw [hred]
    have hmax : ¬((1 : Nat) > a.maxCount) := by
      have := maxCount_pos a
      omega
    unfold rlFresh
    rw [if_neg hmax]

/-- Claim C9 witness: for research-topics (max 2), three calls inside the
window give null, null, throttle, and a call after the window end gives null
again. -/
theorem claim_C9_witness :
    ((((runCalls [] wShop RLAction.researchTopics (0 :: wTail)).1).get ⟨2, by decide⟩).isNone
      = false)
    ∧ (rateLimitCheck (runCalls [] wShop RLAction.researchTopics (0 :: wTail)).2 wShop
        RLAction.researchTopics 99999999).1 = none := by
  have h := claim_C9 RLAction.researchTopics wShop 0 wTail (by decide)
  exact ⟨h.1 2 (by decide), h.2 99999999 (by decide)⟩

theorem collapse_cons_alnum {c : Char} {l : List Char} (h : isLowerAlnum c = true) :
    collapseRuns (c :: l) = c :: collapseRuns l := by
  conv_lhs => rw [collapseRuns]
  rw [if_pos h]

theorem collapse_cons_other {c : Char} {l : List Char} (h : ¬isLowerAlnum c = true) :
    collapseRuns (c :: l) = '-' :: collapseRuns (l.dropWhile (fun d => !isLowerAlnum d)) := by
  conv_lhs => rw [collapseRuns]
  rw [if_neg h]

theorem head_dropWhile_not {p : Char → Bool} :
    ∀ {l : List Char} {c : Char}, (l.dropWhile p).head? = some c → p c = false := by
  intro l
  induction l with
  | nil => intro c h; simp at h
  | cons b t ih =>
    intro c h
    rw [List.dropWhile_cons] at h
    by_cases hb : p b = true
    · simp only [hb, if_true] at h
      exact ih h
    · simp only [hb, if_false] at h
      simp at h
      subst h
      simpa using hb

theorem collapse_head_not_hyphen {l : List Char}
    (hl : ∀ c, l.head? = some c → isLowerAlnum c = true) :
    ∀ b, (collapseRuns l).head? = some b → b ≠ '-' := by
  cases l with
  | nil => intro b hb; simp [collapseRuns] at hb
  | cons c rest =>
    intro b hb
    have hc : isLowerAlnum c = true := hl c rfl
    rw [collapse_cons_alnum hc] at hb
    simp at hb
    subst hb
    intro he
    subst he
    exact absurd hc (by decide)

theorem chain_collapse (l : List Char) : List.Chain' nonAdjHyphens (collapseRuns l) := by
  induction l using collapseRuns.induct with
  | case1 => simp [collapseRuns]
  | case2 c rest h ih =>
    rw [collapse_cons_alnum h]
    rw [List.chain'_cons']
    refine ⟨?_, ih⟩
    intro b _ hand
    rcases hand with ⟨hc, _⟩
    subst hc
    exact absurd h (by decide)
  | case3 c rest h ih =>
    rw [collapse_cons_other h]
    rw [List.chain'_cons']
    refine ⟨?_, ih⟩
    intro b hb hand
    have hheads : ∀ d, ((rest.dropWhile (fun d => !isLowerAlnum d)).head? = some d) →
        isLowerAlnum d = true := by
      intro d hd
      have := head_dropWhile_not hd
      simpa using this
    have hbne := collapse_head_not_hyphen hheads b (Option.mem_def.mp hb)
    exact hbne hand.2

theorem lead_trim_eq {l : List Char} (h : List.Chain' nonAdjHyphens l) :
    dropOneLeadHyphen l = l.dropWhile (fun c => c == '-') := by
  cases l with
  | nil => rfl
  | cons c rest =>
    by_cases hc : (c == '-') = true
    · have hc' : c = '-' := by simpa using hc
      subst hc'
      simp only [dropOneLeadHyphen, if_pos hc]
      rw [List.dropWhile_cons]
      simp only [hc, if_true]
      cases rest with
      | nil => rfl
      | cons b rest2 =>
        have hb : b ≠ '-' := by
          have hr := (List.chain'_cons.mp h).1
          intro he
          exact hr ⟨rfl, he⟩
        rw [List.dropWhile_cons]
        have hbf : (b == '-') = false := by
          simpa using hb
        simp [hbf]
    · simp only [dropOneLeadHyphen, if_neg hc]
      rw [List.dropWhile_cons]
      have hcf : (c == '-') = false := by
        simpa using hc
      simp [hcf]

theorem chain_dropOneLead {l : List Char} (h : List.Chain' nonAdjHyphens l) :
    List.Chain' nonAdjHyphens (dropOneLeadHyphen l) := by
  cases l with
  | nil => simp [dropOneLeadHyphen]
  | cons c rest =>
    by_cases hc : (c == '-') = true
    · simp only [dropOneLeadHyphen, if_pos hc]
      exact h.tail
    · simp only [dropOneLeadHyphen, if_neg hc]
      exact h

theorem chain_reverse_of {l : List Char} (h : List.Chain' nonAdjHyphens l) :
    List.Chain' nonAdjHyphens l.reverse := by
  rw [List.chain'_reverse]
  exact h.imp (fun a b hab => fun hand => hab ⟨hand.2, hand.1⟩)

theorem trim_eq_of_chain {l : List Char} (h : List.Chain' nonAdjHyphens l) :
    codeSlugTrim l = specTrimHyphens l := by
  have h2 : List.Chain' nonAdjHyphens (dropOneLeadHyphen l) := chain_dropOneLead h
  have h3 : List.Chain' nonAdjHyphens ((dropOneLeadHyphen l).reverse) := chain_reverse_of h2
  unfold codeSlugTrim specTrimHyphens
  rw [← lead_trim_eq h, ← lead_trim_eq h3]

/-- The slug the code computes equals the slug the spec describes, for every
title: the single-hyphen trim of the source regex coincides with trimming
all leading and trailing hyphens because the collapse step never emits two
adjacent hyphens. -/
theorem deriveSlug_eq_specDeriveSlug (t : String) : deriveSlug t = specDeriveSlug t := by
  unfold deriveSlug specDeriveSlug
  rw [trim_eq_of_chain (chain_collapse (t.data.map Char.toLower))]

/-- Claim C1 counterexample: all three of selectedTitle, articleContent,
metaDescription are present and non-empty, yet the field validation fails,
naming the four strategy/analysis fields — their absence does block
success. -/
theorem claim_C1_counterexample :
    truthyOpt (jget cPayload fSelectedTitle) = true
    ∧ truthyOpt (jget cPayload fArticleContent) = true
    ∧ truthyOpt (jget cPayload fMetaDescription) = true
    ∧ fieldCheck cPayload = Except.error (missingMsg
        [fCompetitiveIntelligence, fDifferentiationStrategy, fEeatSignals,
         fTechnicalSEOChecklist]) :=
  ⟨rfl, rfl, rfl, rfl⟩

/-- Claim C1 amended: for every parsed payload, the field validation fails
exactly when one of the seven fields of requiredFields is absent or JS-falsy
(in particular empty), and the failure message names exactly the falsy ones
among the seven, in source order; fields outside the seven never block
success. -/
theorem claim_C1_amended (j : Json) :
    fieldCheck j =
      (if requiredFields.all (fun f => truthyOpt (jget j f)) then Except.ok ()
       else Except.error (missingMsg (missingFields j))) := by
  unfold fieldCheck
  by_cases h : missingFields j = []
  · rw [if_pos h]
    have hall : requiredFields.all (fun f => truthyOpt (jget j f)) = true := by
      rw [List.all_eq_true]
      intro f hf
      by_contra hc
      have hfalse : truthyOpt (jget j f) = false := by
        cases hb : truthyOpt (jget j f)
        · rfl
        · exact absurd hb hc
      have hcf : (!truthyOpt (jget j f)) = true := by
        rw [hfalse]
        rfl
      have hmem : f ∈ missingFields j := List.mem_filter.mpr ⟨hf, hcf⟩
      rw [h] at hmem
      cases hmem
    rw [if_pos hall]
    have hac : truthyOpt (jget j fArticleContent) = true := by
      refine List.all_eq_true.mp hall fArticleContent ?_
      simp [requiredFields]
    rw [if_pos hac, if_pos hac]
  · rw [if_neg h]
    have hallf : ¬(requiredFields.all (fun f => truthyOpt (jget j f)) = true) := by
      intro hall
      apply h
      unfold missingFields
      rw [List.filter_eq_nil_iff]
      intro f hf
      have := List.all_eq_true.mp hall f hf
      simp [this]
    rw [if_neg hallf]

/-- Claim C1 amended witness: a payload missing articleContent (among
others) fails with the message naming articleContent. -/
theorem claim_C1_witness :
    fieldCheck cPayloadNoContent = Except.error (missingMsg (missingFields cPayloadNoContent))
    ∧ fArticleContent ∈ missingFields cPayloadNoContent := by
  constructor
  · rw [claim_C1_amended cPayloadNoContent]
    rfl
  · decide

/-- Claim C2: the fenced payload is cleaned to exactly the inner object and
the anchored-at-end match itself already succeeds on it; the prose-wrapped
payload defeats the anchored match (trailing prose) and the anywhere
fallback returns exactly the inner object; in both cases extraction yields
the inner object and JSON.parse turns it into the payload with the three
fields. -/
theorem claim_C2 :
    matchAnchored (cleanText c2Fenced.data) = some c2Inner.data
    ∧ extractJson (cleanText c2Fenced.data) = some c2Inner.data
    ∧ matchAnchored (cleanText c2Prose.data) = none
    ∧ matchAnywhere (cleanText c2Prose.data) = some c2Inner.data
    ∧ extractJson (cleanText c2Prose.data) = some c2Inner.data
    ∧ parseJson c2Inner.data = some c2Expected :=
  ⟨rfl, rfl, rfl, rfl, rfl, rfl⟩

/-! ## Claim C7 (no brace region means the no-JSON error), confirmed -/

theorem mem_dropLeadingNewline {c : Char} : ∀ {l : List Char}, c ∈ dropLeadingNewline l → c ∈ l := by
  intro l h
  cases l with
  | nil => exact h
  | cons d r =>
    have h2 : c ∈ (if d = '\n' then r else d :: r) := h
    by_cases hd : d = '\n'
    · rw [if_pos hd] at h2
      exact List.mem_cons_of_mem _ h2
    · rw [if_neg hd] at h2
      exact h2

theorem mem_stripLeadingFence {c : Char} {l : List Char} (h : c ∈ stripLeadingFence l) :
    c ∈ l := by
  cases l with
  | nil => exact h
  | cons a t1 =>
    cases t1 with
    | nil => exact h
    | cons b t2 =>
      cases t2 with
      | nil => exact h
      | cons d rest =>
        have h2 : c ∈ (if a = btick ∧ b = btick ∧ d = btick
            then dropLeadingNewline (rest.dropWhile isWordChar)
            else a :: b :: d :: rest) := h
        by_cases hf : a = btick ∧ b = btick ∧ d = btick
        · rw [if_pos hf] at h2
          have h3 := mem_of_mem_dropWhile (mem_dropLeadingNewline h2)
          exact List.mem_cons_of_mem _ (List.mem_cons_of_mem _ (List.mem_cons_of_mem _ h3))
        · rw [if_neg hf] at h2
          exact h2

theorem mem_stripTrailingFence {c : Char} {l : List Char} (h : c ∈ stripTrailingFence l) :
    c ∈ l := by
  unfold stripTrailingFence at h
  cases hrev : l.reverse with
  | nil =>
    rw [hrev] at h
    exact h
  | cons a tail =>
    cases tail with
    | nil =>
      rw [hrev] at h
      exact h
    | cons b tail2 =>
      cases tail2 with
      | nil =>
        rw [hrev] at h
        exact h
      | cons d rest =>
        rw [hrev] at h
        have h2 : c ∈ (if a = btick ∧ b = btick ∧ d = btick
            then (dropLeadingNewline rest).reverse else l) := h
        by_cases hf : a = btick ∧ b = btick ∧ d = btick
        · rw [if_pos hf] at h2
          rw [List.mem_reverse] at h2
          have h3 := mem_dropLeadingNewline h2
          have h4 : c ∈ l.reverse := by
            rw [hrev]
            exact List.mem_cons_of_mem _ (List.mem_cons_of_mem _ (List.mem_cons_of_mem _ h3))
          rw [List.mem_reverse] at h4
          exact h4
        · rw [if_neg hf] at h2
          exact h2

theorem mem_cleanText {c : Char} {l : List Char} (h : c ∈ cleanText l) : c ∈ l := by
  unfold cleanText at h
  exact mem_stripLeadingFence (mem_stripTrailingFence (mem_of_mem_jsTrim h))

theorem extract_none_of_no_brace {s : List Char} (h : lbrace ∉ s) : extractJson s = none := by
  have h1 : matchAnchored s = none := by
    unfold matchAnchored
    rw [if_neg]
    intro hand
    exact h hand.2
  have hdw : s.dropWhile (fun c => c != lbrace) = [] := by
    rw [List.dropWhile_eq_nil_iff]
    intro x hx
    have hne : x ≠ lbrace := by
      intro he
      subst he
      exact h hx
    simpa using hne
  have h2 : matchAnywhere s = none := by
    unfold matchAnywhere
    rw [if_pos hdw]
  unfold extractJson
  rw [h1, h2]
  rfl

/-- Claim C7: raw provider text containing no open brace at all fails the
parse block with the no-JSON error; cleaning cannot create a brace, so
neither extraction tier matches and JSON.parse is never reached. -/
theorem claim_C7 (text : String) (h : lbrace ∉ text.data) :
    parsePipeline text = Except.error noJsonMsg := by
  unfold parsePipeline
  have hc : lbrace ∉ cleanText text.data := by
    intro hmem
    exact h (mem_cleanText hmem)
  rw [extract_none_of_no_brace hc]
  rfl

/-- Claim C7 witness: a brace-free text yields the no-JSON error. -/
theorem claim_C7_witness : parsePipeline noBraceText = Except.error noJsonMsg :=
  claim_C7 noBraceText (by decide)

/-! ## Claim C3 (rate-limit short circuit), confirmed -/

/-- Claim C3: for every form, provider text and store, when the rate limiter
returns a throttle message for the request, the handler returns exactly that
message as the error with status 429, and the effect trace is empty: neither
the validators, nor the AI provider, nor the content store is invoked. -/
theorem claim_C3 (msg : String) (form : FormInput) (providerText : String)
    (store : StoreStub) :
    action (some msg) form providerText store
      = (⟨429, some msg, false, none, none⟩, ([] : List Effect)) := rfl

set_option maxRecDepth 40000 in
/-- Claim C4: with a validated request, a well-formed provider payload and
an empty content store, the handler invokes blogCreate exactly once (with
the fixed News title) and then articleCreate exactly once (a draft:
isPublished false), and returns success with articleId the bare trailing
segment of the store-returned gid and articleTitle the payload's selected
title; with an existing blog, no blogCreate invocation happens. -/
theorem claim_C4 :
    action none c4Form c4ProviderText c4Store
      = (⟨200, none, true, some c4BareId, some c4Title⟩,
         [Effect.validate, Effect.provider, Effect.listBlogs,
          Effect.createBlog defaultBlogTitle, Effect.createArticle c4Article])
    ∧ action none c4Form c4ProviderText c4StoreExisting
      = (⟨200, none, true, some c4BareId, some c4Title⟩,
         [Effect.validate, Effect.provider, Effect.listBlogs,
          Effect.createArticle c4ArticleExisting]) :=
  ⟨rfl, rfl⟩

/-! ## Claim C8 (slug derivation), confirmed -/

/-- Claim C8: when the payload provides a truthy urlSlug it is used as the
handle; otherwise the handle is derived from selectedTitle, and the code's
derivation (lower-case, collapse runs of non-alphanumerics to one hyphen,
strip one hyphen at each end) coincides for every title with the spec's
description (strip all leading and trailing hyphens), because the collapse
step never emits adjacent hyphens. -/
theorem claim_C8 :
    (∀ t : String, deriveSlug t = specDeriveSlug t)
    ∧ (∀ j : Json, articleSlug j =
        (if truthyOpt (jget j fUrlSlug) then jstrOpt (jget j fUrlSlug)
         else deriveSlug (jstrOpt (jget j fSelectedTitle)))) :=
  ⟨deriveSlug_eq_specDeriveSlug, fun _ => rfl⟩

end Supervek
